import Mathlib

/-!
Verification of the CRUD resource endpoints of the lecture repository
(`product/views.py` and `users/views.py`), shallowly embedded in Lean.

The repository's view classes are embedded directly. Collaborators that the
views import but whose code is not part of the repository snapshot
(the serializer base classes, the Django model layer, the DRF dispatch loop,
the `IsAuthenticatedUser` predicate) are modelled from the specification,
each marked `Modelled from the spec:` in its doc comment.
-/

namespace OnlineStore

/-- Operation kinds of a DRF ModelViewSet on the product endpoint.
`patch` models the operation the framework names `partial_update`
(HTTP PATCH). -/
inductive Action where
  | list
  | retrieve
  | create
  | update
  | patch
  | destroy
deriving DecidableEq, Repr

/-- A Product record.  Fields follow the data model of the spec:
`id` (unique integer identifier), `title`, `categories` (set-valued
reference, modelled as the list of category identifiers), `price`
(numeric), `tag`, and the soft-delete flag `is_deleted`
(default false). -/
structure Product where
  id : Nat
  title : String
  categories : List Nat
  price : Nat
  tag : String
  is_deleted : Bool := false
deriving DecidableEq, Repr

/-- The value stored under one field name in a serialized representation. -/
inductive FieldVal where
  | nat (n : Nat)
  | str (s : String)
  | nats (l : List Nat)
  | bool (b : Bool)
deriving DecidableEq, Repr

/-- The full named-field representation of a Product record, in declaration
order of the data model. -/
def productFields (p : Product) : List (String × FieldVal) :=
  [("id", .nat p.id),
   ("title", .str p.title),
   ("categories", .nats p.categories),
   ("price", .nat p.price),
   ("tag", .str p.tag),
   ("is_deleted", .bool p.is_deleted)]

/-- Modelled from the spec: the `ProductDynamicFieldsSerializer` class is not
in the repository snapshot; the spec describes its field projection as a
named-field allow-list filter — "given a fixed set of permitted field names,
emit only matching fields in a representation each consumer receives; fields
outside the allow-list are dropped silently, never erroring". -/
def projectFields (allow : List String) (p : Product) : List (String × FieldVal) :=
  (productFields p).filter (fun kv => allow.contains kv.1)

/-- The serializer classes a `ProductViewSet.get_serializer` call can
return.  `dynamicFields fs` stands for
`ProductDynamicFieldsSerializer(..., fields=fs)`. -/
inductive Serializer where
  | dynamicFields (fields : List String)
  | createProduct
  | mutateProduct
deriving DecidableEq, Repr

/-- `ProductViewSet.get_serializer` (views.py lines 14-22): branch on
`self.action`, defaulting to `MutateProductSerializer`. -/
def get_serializer (action : Action) : Serializer :=
  match action with
  | .list => .dynamicFields ["id", "title"]
  | .retrieve => .dynamicFields ["id", "title", "categories", "price", "tag"]
  | .create => .createProduct
  | _ => .mutateProduct

/-- The serialized output representation a dynamic-fields serializer produces
for one record. -/
def serializeWith (s : Serializer) (p : Product) : List (String × FieldVal) :=
  match s with
  | .dynamicFields fs => projectFields fs p
  | .createProduct => productFields p
  | .mutateProduct => productFields p

/-- Permission classes occurring on the product endpoint.  `allowAny` models
the open default that `super().get_permissions()` falls back to. -/
inductive Permission where
  | isAuthenticated
  | allowAny
deriving DecidableEq, Repr

/-- `ProductViewSet.get_permissions` (views.py lines 24-27): the four
mutating actions require `IsAuthenticated`; everything else falls through to
the default.  Modelled from the spec for the fallback branch: "all others
(list, retrieve) are open", so the default is the open permission. -/
def get_permissions (action : Action) : List Permission :=
  if action ∈ [Action.create, Action.update, Action.patch, Action.destroy] then
    [Permission.isAuthenticated]
  else
    [Permission.allowAny]

/-- A caller as the Permission Gate sees it: only the authentication state
matters on the product endpoint. -/
structure Caller where
  authenticated : Bool
deriving DecidableEq, Repr

/-- Whether one permission class admits a caller. -/
def permissionAllows (perm : Permission) (c : Caller) : Bool :=
  match perm with
  | .isAuthenticated => c.authenticated
  | .allowAny => true

/-- Modelled from the spec: the framework runs every permission returned by
`get_permissions` against the caller and denies unless all pass. -/
def check_permissions (c : Caller) (action : Action) : Bool :=
  (get_permissions action).all (fun perm => permissionAllows perm c)

/-- Error taxonomy of the spec: ValidationError, AuthorizationError,
NotFoundError. -/
inductive ApiError where
  | validation
  | authorization
  | notFound
deriving DecidableEq, Repr

/-- The Resource Store: records keyed by integer identifier. -/
abbrev Store := List Product

/-- Framework object lookup (`self.get_object()` resolving the pk against
the queryset).  Modelled from the spec for the failure case: "fails with a
Not-Found error if the identifier does not resolve". -/
def getObject (store : Store) (pk : Nat) : Option Product :=
  store.find? (fun p => p.id = pk)

/-- Persisting a record (`instance.save()`): the row with the instance's
identifier is updated in place. -/
def save (store : Store) (p : Product) : Store :=
  store.map (fun q => if q.id = p.id then p else q)

/-- `ProductViewSet.perform_destroy` (views.py lines 29-31): set
`is_deleted = True` on the instance (it is then saved). -/
def perform_destroy (p : Product) : Product :=
  { p with is_deleted := true }

/-- The destroy operation as dispatched by the framework: resolve the
identifier, then run `perform_destroy` and save; an unresolvable identifier
yields NotFoundError and leaves the store untouched. -/
def destroyAction (store : Store) (pk : Nat) : Store × Except ApiError Unit :=
  match getObject store pk with
  | none => (store, .error .notFound)
  | some p => (save store (perform_destroy p), .ok ())

/-- Modelled from the spec: the framework's dispatch checks the Permission
Gate before running the operation; "On denial: fails with an Authorization
error; the operation is not attempted."  `perform` is the operation body the
view would run. -/
def handleRequest (c : Caller) (action : Action) (store : Store)
    (perform : Store → Store × Except ApiError Unit) :
    Store × Except ApiError Unit :=
  if check_permissions c action then perform store
  else (store, .error .authorization)

/-- `ProductViewSet.queryset` (views.py line 12) and
`ProductCreateListDetailViewSet.queryset` (line 40):
`Product.objects.all()` — every record of the store, with no filter on
`is_deleted`. -/
def queryset (store : Store) : Store :=
  store

end OnlineStore

namespace Users

/-- Operation kinds on the user endpoint: the standard six plus the custom
`@action` `get_username_only`.  `patch` models `partial_update`. -/
inductive UserAction where
  | list
  | retrieve
  | create
  | update
  | patch
  | destroy
  | getUsernameOnly
deriving DecidableEq, Repr

/-- A stored user record; only the fields the embedded code touches. -/
structure StoreUser where
  id : Nat
  username : String
deriving DecidableEq, Repr

/-- Framework object lookup for the user queryset (`self.get_object()`);
fails with Not-Found when the identifier does not resolve. -/
def get_object (users : List StoreUser) (pk : Nat) : Option StoreUser :=
  users.find? (fun u => u.id = pk)

/-- `UserViewSet.get_username_only` (users/views.py lines 17-20): resolve
the record, then return the single-key mapping
`{"username": user.username}`. -/
def get_username_only (users : List StoreUser) (pk : Nat) :
    Except OnlineStore.ApiError (List (String × String)) :=
  match get_object users pk with
  | none => .error .notFound
  | some u => .ok [("username", u.username)]

/-- A caller as the user endpoint's gate sees it.  Modelled from the spec:
the `IsAuthenticatedUser` predicate's code is external; the spec describes it
only as "the gate's custom predicate (e.g. authenticated AND
resource-specific condition)", so the caller carries the predicate's verdict
as one boolean. -/
structure UserCaller where
  predicate_holds : Bool
deriving DecidableEq, Repr

/-- The single permission class on the user endpoint. -/
inductive UserPermission where
  | isAuthenticatedUser
deriving DecidableEq, Repr

/-- `UserViewSet.permission_classes = [IsAuthenticatedUser]`
(users/views.py line 15): the class list is the same for every action —
the view set overrides no per-action permission hook. -/
def user_permissions (_ : UserAction) : List UserPermission :=
  [UserPermission.isAuthenticatedUser]

/-- Whether the custom permission admits the caller. -/
def userPermissionAllows (perm : UserPermission) (c : UserCaller) : Bool :=
  match perm with
  | .isAuthenticatedUser => c.predicate_holds

/-- Modelled from the spec: the framework checks every permission class
against the caller before any operation runs. -/
def user_check_permissions (c : UserCaller) (action : UserAction) : Bool :=
  (user_permissions action).all (fun perm => userPermissionAllows perm c)

end Users

/-! Helper lemmas about the store operations, shared by the claim theorems. -/

namespace OnlineStore

theorem getObject_id_eq {store : Store} {pk : Nat} {p : Product}
    (h : getObject store pk = some p) : p.id = pk := by
  unfold getObject at h
  simpa using List.find?_some h

theorem save_length (store : Store) (p : Product) :
    (save store p).length = store.length :=
  List.length_map store _

theorem getObject_save {store : Store} {pk : Nat} {p : Product} (p' : Product)
    (h : getObject store pk = some p) (hid : p'.id = pk) :
    getObject (save store p') pk = some p' := by
  induction store with
  | nil => simp [getObject] at h
  | cons q rest ih =>
    by_cases hq : q.id = pk
    · have hq' : q.id = p'.id := by rw [hq, hid]
      simp only [save, List.map_cons, if_pos hq', getObject]
      exact List.find?_cons_of_pos _ (by simp [hid])
    · have h' : getObject rest pk = some p := by
        unfold getObject at h ⊢
        rwa [List.find?_cons_of_neg _ (by simpa using hq)] at h
      have hq' : ¬ q.id = p'.id := by rw [hid]; exact hq
      simp only [save, List.map_cons, if_neg hq', getObject]
      rw [List.find?_cons_of_neg _ (by simpa using hq)]
      exact ih h'

theorem save_mem_id {store : Store} {p : Product} :
    ∀ q ∈ save store p, q.id = p.id → q = p := by
  intro q hq hid
  simp only [save] at hq
  rcases List.mem_map.1 hq with ⟨r, hr, hfr⟩
  by_cases hrr : r.id = p.id
  · rw [← hfr, if_pos hrr]
  · rw [← hfr, if_neg hrr] at hid
    exact absurd hid hrr

theorem save_self {store : Store} {p : Product}
    (h : ∀ q ∈ store, q.id = p.id → q = p) : save store p = store := by
  unfold save
  have hcong : ∀ q ∈ store, (if q.id = p.id then p else q) = id q := by
    intro q hq
    by_cases hqq : q.id = p.id
    · simp [hqq, h q hq hqq]
    · simp [hqq]
  rw [List.map_congr_left hcong, List.map_id]

theorem save_getElem? (store : Store) (p : Product) (i : Nat)
    (hi : i < store.length) :
    (save store p)[i]? =
      some (if (store.get ⟨i, hi⟩).id = p.id then p else store.get ⟨i, hi⟩) := by
  simp [save, List.getElem?_map, List.getElem?_eq_getElem hi, List.get_eq_getElem]

theorem perform_destroy_idem (p : Product) :
    perform_destroy (perform_destroy p) = perform_destroy p := rfl

theorem check_permissions_mutating (c : Caller) (a : Action)
    (ha : a ∈ [Action.create, Action.update, Action.patch, Action.destroy]) :
    check_permissions c a = c.authenticated := by
  obtain ⟨b⟩ := c
  fin_cases ha <;> cases b <;> rfl

end OnlineStore

section ClaimTheorems

open OnlineStore Users

/-- C1: for every record, the list operation's output representation carries
exactly the keys {id, title} and no others, and the retrieve operation's
output representation carries exactly the keys
{id, title, categories, price, tag}. -/
theorem list_retrieve_output_keys (p : Product) :
    (serializeWith (get_serializer Action.list) p).map Prod.fst
      = ["id", "title"] ∧
    (serializeWith (get_serializer Action.retrieve) p).map Prod.fst
      = ["id", "title", "categories", "price", "tag"] :=
  ⟨rfl, rfl⟩

/-- C2: destroying an existing record succeeds, sets `is_deleted = true` on
the record and persists it: fetching by the same identifier afterwards still
returns the record (now flagged), and the row count is unchanged. -/
theorem destroy_soft_deletes (store : Store) (pk : Nat) (p : Product)
    (h : getObject store pk = some p) :
    (destroyAction store pk).2 = Except.ok () ∧
    getObject (destroyAction store pk).1 pk = some (perform_destroy p) ∧
    (perform_destroy p).is_deleted = true ∧
    (destroyAction store pk).1.length = store.length := by
  have hp : p.id = pk := getObject_id_eq h
  have hid : (perform_destroy p).id = pk := hp
  refine ⟨?_, ?_, rfl, ?_⟩
  · simp [destroyAction, h]
  · simp only [destroyAction, h]
    exact getObject_save _ h hid
  · simp [destroyAction, h, save_length]

/-- Witness for C2 on a concrete one-record store. -/
theorem destroy_soft_deletes_witness :
    getObject [(⟨5, "phone", [1], 100, "new", false⟩ : Product)] 5
      = some ⟨5, "phone", [1], 100, "new", false⟩ ∧
    ((destroyAction [(⟨5, "phone", [1], 100, "new", false⟩ : Product)] 5).2
        = Except.ok () ∧
      getObject (destroyAction [(⟨5, "phone", [1], 100, "new", false⟩ : Product)] 5).1 5
        = some (perform_destroy ⟨5, "phone", [1], 100, "new", false⟩) ∧
      (perform_destroy (⟨5, "phone", [1], 100, "new", false⟩ : Product)).is_deleted = true ∧
      (destroyAction [(⟨5, "phone", [1], 100, "new", false⟩ : Product)] 5).1.length
        = [(⟨5, "phone", [1], 100, "new", false⟩ : Product)].length) :=
  ⟨rfl, destroy_soft_deletes _ 5 ⟨5, "phone", [1], 100, "new", false⟩ rfl⟩

/-- C3: the product endpoint's gate requires authentication exactly on
{create, update, partial_update, destroy}; list and retrieve are open to
any caller. -/
theorem product_permission_policy :
    (∀ (c : Caller), ∀ a ∈ [Action.create, Action.update, Action.patch, Action.destroy],
        check_permissions c a = c.authenticated) ∧
    (∀ (c : Caller), check_permissions c Action.list = true ∧
        check_permissions c Action.retrieve = true) := by
  refine ⟨fun c a ha => check_permissions_mutating c a ha, ?_⟩
  rintro ⟨b⟩
  exact ⟨rfl, rfl⟩

/-- Witness for C3: an authenticated caller passes create, an
unauthenticated caller passes list. -/
theorem product_permission_policy_witness :
    check_permissions ⟨true⟩ Action.create = true ∧
    check_permissions ⟨false⟩ Action.list = true :=
  ⟨product_permission_policy.1 ⟨true⟩ Action.create (by decide),
    (product_permission_policy.2 ⟨false⟩).1⟩

/-- C4 counterexample: a store holding one soft-deleted record; the default
list queryset (`Product.objects.all()`) still contains that record, so
soft-deleted records are NOT excluded from the default list operation. -/
theorem soft_deleted_not_excluded_from_queryset :
    (⟨5, "phone", [1], 100, "new", true⟩ : Product)
        ∈ queryset [(⟨5, "phone", [1], 100, "new", true⟩ : Product)] ∧
    (⟨5, "phone", [1], 100, "new", true⟩ : Product).is_deleted = true :=
  ⟨List.mem_singleton.2 rfl, rfl⟩

/-- C4 amended: records with `is_deleted = true` remain physically present
in the store (a destroyed record is still a member of the queryset and the
row count is unchanged), and they are included in — not excluded from — the
default list queryset, which returns every record of the store. -/
theorem deleted_records_present_and_listed (store : Store) (pk : Nat) (p : Product)
    (h : getObject store pk = some p) :
    perform_destroy p ∈ queryset (destroyAction store pk).1 ∧
    (queryset (destroyAction store pk).1).length = store.length ∧
    (∀ q ∈ store, q.is_deleted = true → q ∈ queryset store) := by
  have hp : p.id = pk := getObject_id_eq h
  have hid : (perform_destroy p).id = pk := hp
  refine ⟨?_, ?_, fun q hq _ => hq⟩
  · have hfound := getObject_save (perform_destroy p) h hid
    simp only [destroyAction, h, queryset]
    unfold getObject at hfound
    exact List.mem_of_find?_eq_some hfound
  · simp [destroyAction, h, queryset, save_length]

/-- Witness for the amended C4 on a concrete one-record store. -/
theorem deleted_records_present_and_listed_witness :
    getObject [(⟨5, "phone", [1], 100, "new", false⟩ : Product)] 5
      = some ⟨5, "phone", [1], 100, "new", false⟩ ∧
    perform_destroy (⟨5, "phone", [1], 100, "new", false⟩ : Product)
      ∈ queryset (destroyAction [(⟨5, "phone", [1], 100, "new", false⟩ : Product)] 5).1 :=
  ⟨rfl,
    (deleted_records_present_and_listed [⟨5, "phone", [1], 100, "new", false⟩] 5
      ⟨5, "phone", [1], 100, "new", false⟩ rfl).1⟩

/-- C5: for every operation kind in {create, update, partial_update,
destroy}, a request from an unauthenticated caller yields the Authorization
error, the operation body is never run, and the store is unchanged. -/
theorem unauthenticated_mutation_denied (c : Caller) (a : Action) (store : Store)
    (perform : Store → Store × Except ApiError Unit)
    (hc : c.authenticated = false)
    (ha : a ∈ [Action.create, Action.update, Action.patch, Action.destroy]) :
    handleRequest c a store perform = (store, Except.error ApiError.authorization) := by
  have hcp : check_permissions c a = false := by
    rw [check_permissions_mutating c a ha, hc]
  simp [handleRequest, hcp]

/-- Witness for C5: an unauthenticated create request on an empty store is
denied with the Authorization error and leaves the store as it was. -/
theorem unauthenticated_mutation_denied_witness :
    (⟨false⟩ : Caller).authenticated = false ∧
    Action.create ∈ [Action.create, Action.update, Action.patch, Action.destroy] ∧
    handleRequest ⟨false⟩ Action.create [] (fun s => (s, Except.ok ()))
      = ([], Except.error ApiError.authorization) :=
  ⟨rfl, by decide,
    unauthenticated_mutation_denied ⟨false⟩ Action.create []
      (fun s => (s, Except.ok ())) rfl (by decide)⟩

/-- C6: the serializer selector maps create to the full creation serializer,
and every operation kind other than list, retrieve and create to the generic
mutation serializer. -/
theorem serializer_selector_dispatch :
    get_serializer Action.create = Serializer.createProduct ∧
    ∀ a : Action, a ≠ Action.list → a ≠ Action.retrieve → a ≠ Action.create →
      get_serializer a = Serializer.mutateProduct := by
  refine ⟨rfl, ?_⟩
  intro a h1 h2 h3
  cases a
  · exact absurd rfl h1
  · exact absurd rfl h2
  · exact absurd rfl h3
  · rfl
  · rfl
  · rfl

/-- Witness for C6 at the update operation kind. -/
theorem serializer_selector_dispatch_witness :
    Action.update ≠ Action.list ∧
    get_serializer Action.update = Serializer.mutateProduct :=
  ⟨by decide,
    serializer_selector_dispatch.2 Action.update (by decide) (by decide) (by decide)⟩

/-- C7: the field-subset action returns exactly the single-key mapping from
"username" to the record's username when the identifier resolves, and the
Not-Found error when it does not. -/
theorem get_username_only_contract :
    (∀ (users : List StoreUser) (pk : Nat) (u : StoreUser),
        Users.get_object users pk = some u →
        get_username_only users pk = Except.ok [("username", u.username)]) ∧
    (∀ (users : List StoreUser) (pk : Nat),
        Users.get_object users pk = none →
        get_username_only users pk = Except.error ApiError.notFound) := by
  constructor
  · intro users pk u h
    simp [get_username_only, h]
  · intro users pk h
    simp [get_username_only, h]

/-- Witness for C7 on the spec's example record `username = "alice"`. -/
theorem get_username_only_contract_witness :
    Users.get_object [(⟨1, "alice"⟩ : StoreUser)] 1 = some ⟨1, "alice"⟩ ∧
    get_username_only [(⟨1, "alice"⟩ : StoreUser)] 1
      = Except.ok [("username", "alice")] ∧
    Users.get_object [(⟨1, "alice"⟩ : StoreUser)] 2 = none ∧
    get_username_only [(⟨1, "alice"⟩ : StoreUser)] 2
      = Except.error ApiError.notFound :=
  ⟨rfl, get_username_only_contract.1 _ 1 ⟨1, "alice"⟩ rfl, rfl,
    get_username_only_contract.2 _ 2 rfl⟩

/-- C8: destroy on an identifier that resolves to no record yields the
Not-Found error and returns the store unchanged, so no record is mutated. -/
theorem destroy_missing_id_not_found (store : Store) (pk : Nat)
    (h : getObject store pk = none) :
    destroyAction store pk = (store, Except.error ApiError.notFound) := by
  simp [destroyAction, h]

/-- Witness for C8 at the spec's example identifier 9999. -/
theorem destroy_missing_id_not_found_witness :
    getObject [(⟨5, "phone", [1], 100, "new", false⟩ : Product)] 9999 = none ∧
    destroyAction [(⟨5, "phone", [1], 100, "new", false⟩ : Product)] 9999
      = ([(⟨5, "phone", [1], 100, "new", false⟩ : Product)],
          Except.error ApiError.notFound) :=
  ⟨rfl, destroy_missing_id_not_found _ 9999 rfl⟩

/-- C9: on the user endpoint every operation kind — list, retrieve, the
mutations, and the field-subset action — is gated by the single custom
predicate: the permission check passes exactly when the predicate holds for
the caller, so a caller failing the predicate is denied on every kind. -/
theorem user_endpoint_gate (a : UserAction) (c : UserCaller) :
    user_check_permissions c a = c.predicate_holds := by
  obtain ⟨b⟩ := c
  cases b <;> rfl

/-- C10: destroy on an existing record is a frame-respecting update: every
record whose identifier differs from the target is unchanged at its
position, the record at the target identifier becomes its soft-deleted copy,
`perform_destroy` preserves every field except `is_deleted`, and a second
destroy of the same identifier leaves the store identical. -/
theorem destroy_frame (store : Store) (pk : Nat) (p : Product)
    (h : getObject store pk = some p) :
    (∀ (i : Nat) (hi : i < store.length),
        (store.get ⟨i, hi⟩).id ≠ pk →
        (destroyAction store pk).1[i]? = some (store.get ⟨i, hi⟩)) ∧
    (∀ (i : Nat) (hi : i < store.length),
        (store.get ⟨i, hi⟩).id = pk →
        (destroyAction store pk).1[i]? = some (perform_destroy p)) ∧
    (perform_destroy p).id = p.id ∧
    (perform_destroy p).title = p.title ∧
    (perform_destroy p).categories = p.categories ∧
    (perform_destroy p).price = p.price ∧
    (perform_destroy p).tag = p.tag ∧
    destroyAction (destroyAction store pk).1 pk
      = ((destroyAction store pk).1, Except.ok ()) := by
  have hp : p.id = pk := getObject_id_eq h
  have hid : (perform_destroy p).id = pk := hp
  refine ⟨?_, ?_, rfl, rfl, rfl, rfl, rfl, ?_⟩
  · intro i hi hne
    simp only [destroyAction, h]
    rw [save_getElem? store _ i hi, if_neg]
    intro hc
    exact hne (hc.trans hid)
  · intro i hi heq
    simp only [destroyAction, h]
    rw [save_getElem? store _ i hi, if_pos (heq.trans hid.symm)]
  · have h2 : getObject (save store (perform_destroy p)) pk
        = some (perform_destroy p) :=
      getObject_save _ h hid
    have hidem : save (save store (perform_destroy p)) (perform_destroy p)
        = save store (perform_destroy p) :=
      save_self save_mem_id
    simp only [destroyAction, h, h2, perform_destroy_idem, hidem]

/-- Witness for C10: idempotence of destroy on a concrete two-record
store. -/
theorem destroy_frame_witness :
    getObject [(⟨5, "phone", [1], 100, "new", false⟩ : Product),
               (⟨6, "case", [2], 7, "old", false⟩ : Product)] 5
      = some ⟨5, "phone", [1], 100, "new", false⟩ ∧
    destroyAction
        (destroyAction [(⟨5, "phone", [1], 100, "new", false⟩ : Product),
                        (⟨6, "case", [2], 7, "old", false⟩ : Product)] 5).1 5
      = ((destroyAction [(⟨5, "phone", [1], 100, "new", false⟩ : Product),
                         (⟨6, "case", [2], 7, "old", false⟩ : Product)] 5).1,
          Except.ok ()) :=
  ⟨rfl,
    (destroy_frame [⟨5, "phone", [1], 100, "new", false⟩,
                    ⟨6, "case", [2], 7, "old", false⟩] 5
        ⟨5, "phone", [1], 100, "new", false⟩ rfl).2.2.2.2.2.2.2⟩

end ClaimTheorems
